import Mathlib

/-!
Verification development for the TradingAgents crypto backtesting and
paper-trading supervision code.

The embedding translates, from the Python sources:
* `tradingagents/backtesting/crypto_backtest_engine.py`
  (`OrderType`, `Trade`, `Position`, `CryptoBacktestEngine` with
  `get_portfolio_value`, `calculate_position_size`, `execute_trade`,
  `check_stop_loss_take_profit`, `update_portfolio_value`);
* `tradingagents/backtesting/crypto_strategy_evaluator.py`
  (the per-bar body of `CryptoStrategyEvaluator.run_backtest`);
* `tradingagents/paper_trading/bot_manager.py`
  (the retry/stop logic of `BotManager._handle_engine_failure`,
  `BotManager.stop` and the monitoring loop).

Python floats are embedded as exact rationals (`ℚ`), timestamps as `ℕ`,
and `dict` as an association list with unique keys (`dictGet`, `dictSet`,
`dictUpdate`, `dictDel` mirror `d[k]`, `d[k] = v`, in-place field update
of a stored object, and `del d[k]`).  A method mutating `self` becomes a
function returning the new engine state.
-/

namespace TradingAgents

/-- `OrderType` enum from `crypto_backtest_engine.py`. -/
inductive OrderType where
  | BUY
  | SELL
  | HOLD
deriving DecidableEq, Repr

/-- `Trade` dataclass: a single trade execution record. -/
structure Trade where
  timestamp : ℕ
  symbol : String
  order_type : OrderType
  price : ℚ
  quantity : ℚ
  commission : ℚ
  slippage : ℚ
  total_cost : ℚ
  portfolio_value_before : ℚ
  portfolio_value_after : ℚ
  reason : String
deriving DecidableEq, Repr

/-- `Position` dataclass: a currently open position. -/
structure Position where
  symbol : String
  quantity : ℚ
  entry_price : ℚ
  entry_time : ℕ
  current_price : ℚ
  unrealized_pnl : ℚ
  unrealized_pnl_pct : ℚ
deriving DecidableEq, Repr

/-- Python `d.get(k)` / `k in d` on a dict embedded as an association list. -/
def dictGet {α : Type} (d : List (String × α)) (k : String) : Option α :=
  match d with
  | [] => none
  | (k', v) :: rest => if k' = k then some v else dictGet rest k

/-- Python `d[k] = v`: replace the binding if the key is present, else append. -/
def dictSet {α : Type} (d : List (String × α)) (k : String) (v : α) :
    List (String × α) :=
  match d with
  | [] => [(k, v)]
  | (k', v') :: rest =>
      if k' = k then (k, v) :: rest else (k', v') :: dictSet rest k v

/-- In-place mutation of the object stored under `k` (no-op when absent),
as happens when Python code mutates a `Position` object held by the dict. -/
def dictUpdate {α : Type} (d : List (String × α)) (k : String) (v : α) :
    List (String × α) :=
  match d with
  | [] => []
  | (k', v') :: rest =>
      if k' = k then (k, v) :: rest else (k', v') :: dictUpdate rest k v

/-- Python `del d[k]` (keys are unique, so deleting the first match suffices). -/
def dictDel {α : Type} (d : List (String × α)) (k : String) :
    List (String × α) :=
  match d with
  | [] => []
  | (k', v') :: rest => if k' = k then rest else (k', v') :: dictDel rest k

/-- Mutable state and configuration of `CryptoBacktestEngine`. -/
structure Engine where
  initial_capital : ℚ
  commission_rate : ℚ
  slippage_rate : ℚ
  max_position_size : ℚ
  stop_loss_pct : ℚ
  take_profit_pct : ℚ
  risk_per_trade : ℚ
  cash : ℚ
  positions : List (String × Position)
  portfolio_value_history : List (ℕ × ℚ)
  trades : List Trade
  max_portfolio_value : ℚ
  max_drawdown : ℚ
  total_trades : ℕ
  winning_trades : ℕ
  losing_trades : ℕ
deriving DecidableEq, Repr

/-- `CryptoBacktestEngine.__init__` with the constructor's default
parameters (`initial_capital=10000`, `commission_rate=0.001`,
`slippage_rate=0.002`, `max_position_size=0.20`, `stop_loss_pct=0.15`,
`take_profit_pct=0.30`, `risk_per_trade=0.02`). -/
def Engine.init (initial_capital : ℚ := 10000) (commission_rate : ℚ := 0.001)
    (slippage_rate : ℚ := 0.002) (max_position_size : ℚ := 0.20)
    (stop_loss_pct : ℚ := 0.15) (take_profit_pct : ℚ := 0.30)
    (risk_per_trade : ℚ := 0.02) : Engine where
  initial_capital := initial_capital
  commission_rate := commission_rate
  slippage_rate := slippage_rate
  max_position_size := max_position_size
  stop_loss_pct := stop_loss_pct
  take_profit_pct := take_profit_pct
  risk_per_trade := risk_per_trade
  cash := initial_capital
  positions := []
  portfolio_value_history := []
  trades := []
  max_portfolio_value := initial_capital
  max_drawdown := 0
  total_trades := 0
  winning_trades := 0
  losing_trades := 0

/-- `CryptoBacktestEngine.get_portfolio_value`: cash plus the value of all
open positions at `current_prices` (falling back to each position's
`current_price` when the symbol is missing from the price map). -/
def get_portfolio_value (e : Engine) (current_prices : List (String × ℚ)) : ℚ :=
  e.cash +
    (e.positions.map
      (fun kv => kv.2.quantity *
        ((dictGet current_prices kv.2.symbol).getD kv.2.current_price))).sum

/-- `CryptoBacktestEngine.calculate_position_size`: risk-managed sizing,
capped by `max_position_size` of the portfolio, by the risk-based value,
and by 95% of available cash; returns a quantity in base currency. -/
def calculate_position_size (e : Engine) (_symbol : String) (entry_price : ℚ)
    (portfolio_value : ℚ) : ℚ :=
  let max_position_value := portfolio_value * e.max_position_size
  let risk_amount := portfolio_value * e.risk_per_trade
  let stop_distance := e.stop_loss_pct
  let risk_based_quantity := risk_amount / (entry_price * stop_distance)
  let risk_based_value := risk_based_quantity * entry_price
  let position_value := min max_position_value risk_based_value
  let available_cash := e.cash * 0.95
  let position_value2 := min position_value available_cash
  position_value2 / entry_price

/-- `CryptoBacktestEngine.execute_trade`: returns the `Trade` when the order
fills and `none` when it is rejected (duplicate position, non-positive
quantity, insufficient funds, no position to sell) or the order is `HOLD`,
together with the updated engine state. -/
def execute_trade (e : Engine) (timestamp : ℕ) (symbol : String)
    (order_type : OrderType) (price : ℚ) (reason : String) :
    Option Trade × Engine :=
  match order_type with
  | OrderType.HOLD => (none, e)
  | OrderType.BUY =>
    let portfolio_value_before := get_portfolio_value e [(symbol, price)]
    match dictGet e.positions symbol with
    | some _ => (none, e)
    | none =>
      let quantity := calculate_position_size e symbol price portfolio_value_before
      if quantity ≤ 0 then (none, e)
      else
        let slippage := price * e.slippage_rate
        let execution_price := price * (1 + e.slippage_rate)
        let cost := quantity * execution_price
        let commission := cost * e.commission_rate
        let total_cost := cost + commission
        if total_cost > e.cash then (none, e)
        else
          let newpos : Position :=
            { symbol := symbol
              quantity := quantity
              entry_price := execution_price
              entry_time := timestamp
              current_price := price
              unrealized_pnl := 0
              unrealized_pnl_pct := 0 }
          let e1 := { e with
            cash := e.cash - total_cost
            positions := dictSet e.positions symbol newpos }
          let portfolio_value_after := get_portfolio_value e1 [(symbol, price)]
          let trade : Trade :=
            { timestamp := timestamp
              symbol := symbol
              order_type := order_type
              price := execution_price
              quantity := quantity
              commission := commission
              slippage := slippage * quantity
              total_cost := total_cost
              portfolio_value_before := portfolio_value_before
              portfolio_value_after := portfolio_value_after
              reason := reason }
          let e2 := { e1 with
            trades := e1.trades ++ [trade]
            total_trades := e1.total_trades + 1 }
          (some trade, e2)
  | OrderType.SELL =>
    let portfolio_value_before := get_portfolio_value e [(symbol, price)]
    match dictGet e.positions symbol with
    | none => (none, e)
    | some position =>
      let quantity := position.quantity
      let slippage := price * e.slippage_rate
      let execution_price := price * (1 - e.slippage_rate)
      let proceeds := quantity * execution_price
      let commission := proceeds * e.commission_rate
      let net_proceeds := proceeds - commission
      let pnl := net_proceeds - position.entry_price * quantity
      let e1 := { e with
        cash := e.cash + net_proceeds
        winning_trades :=
          if pnl > 0 then e.winning_trades + 1 else e.winning_trades
        losing_trades :=
          if pnl > 0 then e.losing_trades else e.losing_trades + 1
        positions := dictDel e.positions symbol }
      let portfolio_value_after := get_portfolio_value e1 [(symbol, price)]
      let trade : Trade :=
        { timestamp := timestamp
          symbol := symbol
          order_type := order_type
          price := execution_price
          quantity := quantity
          commission := commission
          slippage := slippage * quantity
          total_cost := net_proceeds
          portfolio_value_before := portfolio_value_before
          portfolio_value_after := portfolio_value_after
          reason := reason }
      let e2 := { e1 with
        trades := e1.trades ++ [trade]
        total_trades := e1.total_trades + 1 }
      (some trade, e2)

/-- Display-only model of the f-string `{pct:.2%}` rendering used in the
stop-loss / take-profit reason messages; no verified property depends on
the rendered digits, only on the distinct textual prefixes. -/
def fmtPct (q : ℚ) : String :=
  toString (q * 100) ++ "%"

/-- Body of the loop in `CryptoBacktestEngine.check_stop_loss_take_profit`
for one snapshotted `(symbol, position)` pair: skip when the symbol has no
current price; otherwise update the stored position's mark-to-market
fields, then force a SELL when `unrealized_pnl_pct ≤ -stop_loss_pct`
(stop loss) or, failing that, when `unrealized_pnl_pct ≥ take_profit_pct`
(take profit). -/
def sweepPosition (timestamp : ℕ) (current_prices : List (String × ℚ))
    (st : Engine × List Trade) (kv : String × Position) :
    Engine × List Trade :=
  match dictGet current_prices kv.1 with
  | none => st
  | some current_price =>
    let position := kv.2
    let upd : Position := { position with
      current_price := current_price
      unrealized_pnl := (current_price - position.entry_price) * position.quantity
      unrealized_pnl_pct := current_price / position.entry_price - 1 }
    let e1 := { st.1 with positions := dictUpdate st.1.positions kv.1 upd }
    if upd.unrealized_pnl_pct ≤ -e1.stop_loss_pct then
      let r := execute_trade e1 timestamp kv.1 OrderType.SELL current_price
        ("Stop Loss triggered at " ++ fmtPct upd.unrealized_pnl_pct)
      match r.1 with
      | some t => (r.2, st.2 ++ [t])
      | none => (r.2, st.2)
    else if upd.unrealized_pnl_pct ≥ e1.take_profit_pct then
      let r := execute_trade e1 timestamp kv.1 OrderType.SELL current_price
        ("Take Profit triggered at " ++ fmtPct upd.unrealized_pnl_pct)
      match r.1 with
      | some t => (r.2, st.2 ++ [t])
      | none => (r.2, st.2)
    else (e1, st.2)

/-- `CryptoBacktestEngine.check_stop_loss_take_profit`: iterate over a
snapshot of the open positions (`positions_to_check = list(...)`), closing
each one whose unrealized P&L breaches the stop-loss or take-profit band;
returns the updated engine and the list of forced trades. -/
def check_stop_loss_take_profit (e : Engine) (timestamp : ℕ)
    (current_prices : List (String × ℚ)) : Engine × List Trade :=
  e.positions.foldl (sweepPosition timestamp current_prices) (e, [])

/-- `CryptoBacktestEngine.update_portfolio_value`: append a valuation
snapshot and maintain the running peak and running max drawdown. -/
def update_portfolio_value (e : Engine) (timestamp : ℕ)
    (current_prices : List (String × ℚ)) : Engine :=
  let portfolio_value := get_portfolio_value e current_prices
  let e1 := { e with portfolio_value_history :=
    e.portfolio_value_history ++ [(timestamp, portfolio_value)] }
  let e2 :=
    if portfolio_value > e1.max_portfolio_value then
      { e1 with max_portfolio_value := portfolio_value }
    else e1
  let current_drawdown :=
    (e2.max_portfolio_value - portfolio_value) / e2.max_portfolio_value
  if current_drawdown > e2.max_drawdown then
    { e2 with max_drawdown := current_drawdown }
  else e2

/-- A strategy function as consumed by `CryptoStrategyEvaluator.run_backtest`:
given the bar's timestamp, its close price (the part of `row` the driver
uses) and the engine, it returns `(order_type, reason)` or raises — a raise
is embedded as `Except.error` with the message. -/
def Strategy : Type :=
  ℕ → ℚ → Engine → Except String (OrderType × String)

/-- One iteration of the bar loop in `CryptoStrategyEvaluator.run_backtest`
(lines 81–101): run the stop-loss / take-profit sweep, invoke the strategy
on the post-sweep engine, execute its order if it is not HOLD — an
exception from the strategy is caught and nothing is executed — and
finally append a valuation snapshot. -/
def bar_step (symbol : String) (strategy_func : Strategy) (e : Engine)
    (bar : ℕ × ℚ) : Engine :=
  let timestamp := bar.1
  let current_price := bar.2
  let current_prices := [(symbol, current_price)]
  let e1 := (check_stop_loss_take_profit e timestamp current_prices).1
  let e2 :=
    match strategy_func timestamp current_price e1 with
    | Except.ok (order_type, reason) =>
        if order_type ≠ OrderType.HOLD then
          (execute_trade e1 timestamp symbol order_type current_price reason).2
        else e1
    | Except.error _ => e1
  update_portfolio_value e2 timestamp current_prices

/-- The bar loop of `CryptoStrategyEvaluator.run_backtest`: deterministic
left-to-right replay of the chronologically ordered bars. -/
def run_backtest (symbol : String) (strategy_func : Strategy) (e : Engine)
    (bars : List (ℕ × ℚ)) : Engine :=
  bars.foldl (bar_step symbol strategy_func) e

/-- Supervision state of `BotManager` (`bot_manager.py`): the retry
configuration (`max_retries`, `retry_delay`), the consecutive-retry
counter, the manager's running flag, the supervised engine's running flag,
and the total time spent in `time.sleep(self.retry_delay)` calls. -/
structure BotState where
  max_retries : ℕ
  retry_delay : ℕ
  retry_count : ℕ
  is_running : Bool
  engine_running : Bool
  total_wait : ℕ
deriving DecidableEq, Repr

/-- `BotManager.stop` (lines 264–284): no-op when already stopped;
otherwise clear `is_running` and stop the engine (reporting elided). -/
def bot_stop (b : BotState) : BotState :=
  if b.is_running = false then b
  else { b with is_running := false, engine_running := false }

/-- `BotManager._handle_engine_failure` (lines 234–251): once
`retry_count ≥ max_retries` the manager stops permanently; otherwise it
increments the consecutive-retry counter, sleeps `retry_delay` seconds and
attempts `engine.start` — `restart_ok` says whether that attempt succeeds
(an exception from a failing restart is caught at lines 250–251, leaving
the engine stopped). -/
def handle_engine_failure (restart_ok : Bool) (b : BotState) : BotState :=
  if b.retry_count ≥ b.max_retries then bot_stop b
  else
    { b with
      retry_count := b.retry_count + 1
      total_wait := b.total_wait + b.retry_delay
      engine_running := restart_ok }

/-- One pass of `BotManager._monitoring_loop` (lines 125–141) restricted
to the engine-failure branch: when the engine is found stopped while the
manager should be running, `_handle_engine_failure` runs.  Health checks
with a stopped engine return early at lines 162–164 without touching
`retry_count`, so they are invisible to this state. -/
def monitor_step (restart_ok : Bool) (b : BotState) : BotState :=
  if b.is_running = true ∧ b.engine_running = false then
    handle_engine_failure restart_ok b
  else b

/-- The `while self.is_running` monitoring loop, run for `n` iterations
(the loop itself never terminates on its own; `n` bounds how far we
observe it). -/
def monitor_loop (restart_ok : Bool) : ℕ → BotState → BotState
  | 0, b => b
  | n + 1, b =>
      if b.is_running = true then
        monitor_loop restart_ok n (monitor_step restart_ok b)
      else b

/-- `BotManager` state right after `start` when the supervised engine has
just died: running flag set, engine stopped, no retries yet. -/
def bot_init (max_retries retry_delay : ℕ) : BotState where
  max_retries := max_retries
  retry_delay := retry_delay
  retry_count := 0
  is_running := true
  engine_running := false
  total_wait := 0

/-! ## Theorems -/

/-- C1: every BUY accepted by `execute_trade` records an execution price of
`referencePrice × (1 + slippageRate)`, a commission of
`executionPrice × quantity × commissionRate`, and debits cash by exactly
`quantity × executionPrice + commission`. -/
theorem buy_fill_pricing (e : Engine) (ts : ℕ) (sym : String) (price : ℚ)
    (reason : String) (t : Trade) (e' : Engine)
    (h : execute_trade e ts sym OrderType.BUY price reason = (some t, e')) :
    t.price = price * (1 + e.slippage_rate) ∧
    t.commission = t.price * t.quantity * e.commission_rate ∧
    e'.cash = e.cash - (t.quantity * t.price + t.commission) := by
  simp only [execute_trade] at h
  split at h
  · simp at h
  · split at h
    · simp at h
    · split at h
      · simp at h
      · rw [Prod.mk.injEq] at h
        obtain ⟨h1, h2⟩ := h
        obtain rfl := Option.some.inj h1
        subst h2
        dsimp only
        exact ⟨rfl, by ring, by ring⟩

/-- The trade produced by a BUY at reference price 50000 on a freshly
initialized engine (default parameters, `initial_capital = 10000`):
quantity `2/75` from the sizing formula, execution price
`50000 × 1.002 = 50100`, commission `1.336`, total cost `1337.336`. -/
def buyDemoTrade : Trade where
  timestamp := 0
  symbol := "BTC"
  order_type := OrderType.BUY
  price := 50100
  quantity := 2 / 75
  commission := 167 / 125
  slippage := 8 / 3
  total_cost := 167167 / 125
  portfolio_value_before := 10000
  portfolio_value_after := 3748499 / 375
  reason := ""

/-- Engine state after the demonstration BUY of `buyDemoTrade`. -/
def buyDemoAfter : Engine :=
  (execute_trade (Engine.init) 0 "BTC" OrderType.BUY 50000 "").2

/-- C1 witness: on the default engine (`commission=0.001`,
`slippage=0.002`), a BUY at reference price 50000 fills at execution
price 50100 and debits cash by `quantity × 50100 × 1.001`. -/
theorem buy_fill_pricing_witness :
    execute_trade (Engine.init) 0 "BTC" OrderType.BUY 50000 "" =
      (some buyDemoTrade, buyDemoAfter) ∧
    buyDemoTrade.price = 50100 ∧
    buyDemoAfter.cash = (Engine.init).cash -
      (buyDemoTrade.quantity * buyDemoTrade.price + buyDemoTrade.commission) ∧
    buyDemoAfter.cash = (Engine.init).cash -
      buyDemoTrade.quantity * 50100 * 1.001 := by
  have h1 : (execute_trade (Engine.init) 0 "BTC" OrderType.BUY 50000 "").1 =
      some buyDemoTrade := by
    norm_num [execute_trade, Engine.init, get_portfolio_value,
      calculate_position_size, dictGet, dictSet, buyDemoTrade]
  have h : execute_trade (Engine.init) 0 "BTC" OrderType.BUY 50000 "" =
      (some buyDemoTrade, buyDemoAfter) := Prod.ext h1 rfl
  refine ⟨h, by norm_num [buyDemoTrade],
    (buy_fill_pricing (Engine.init) 0 "BTC" 50000 "" buyDemoTrade
      buyDemoAfter h).2.2, ?_⟩
  norm_num [buyDemoAfter, buyDemoTrade, execute_trade, Engine.init,
    get_portfolio_value, calculate_position_size, dictGet, dictSet]

/-- A position held at entry price 100, as produced by an earlier BUY. -/
def posDemo : Position where
  symbol := "BTC"
  quantity := 1
  entry_price := 100
  entry_time := 0
  current_price := 100
  unrealized_pnl := 0
  unrealized_pnl_pct := 0

/-- Default engine already holding an open BTC position. -/
def engineWithPos : Engine :=
  { Engine.init with positions := [("BTC", posDemo)] }

/-- Default engine with no cash (sizing yields quantity 0). -/
def engineBroke : Engine :=
  { Engine.init with cash := 0 }

/-- Default engine with an absurd slippage rate, making the sized order's
total cost exceed cash (insufficient-funds rejection). -/
def engineSlip : Engine :=
  { Engine.init with slippage_rate := 10 }

/-- C2 counterexample: a duplicate-position BUY rejection and a
no-position SELL rejection — two different rejection causes — both return
the bare result `none`, and the two results are equal: the returned value
carries no reason code distinguishing the causes. -/
theorem rejection_reason_code_counterexample :
    (execute_trade engineWithPos 0 "BTC" OrderType.BUY 100 "").1 = none ∧
    (execute_trade (Engine.init) 0 "BTC" OrderType.SELL 100 "").1 = none ∧
    (execute_trade engineWithPos 0 "BTC" OrderType.BUY 100 "").1 =
      (execute_trade (Engine.init) 0 "BTC" OrderType.SELL 100 "").1 := by
  norm_num [execute_trade, engineWithPos, Engine.init, dictGet, posDemo]

/-- C2 (amended): every non-filling call to `execute_trade` — duplicate
position on BUY, computed quantity ≤ 0, insufficient funds, or no
position on SELL — is a silent no-op returning `(none, e)` with the
engine unchanged (the embedding is total, so no exception is possible);
the uniform `none` carries no reason code. -/
theorem rejection_silent_noop (e : Engine) (ts : ℕ) (sym : String)
    (price : ℚ) (reason : String) :
    ((dictGet e.positions sym).isSome →
      execute_trade e ts sym OrderType.BUY price reason = (none, e)) ∧
    (calculate_position_size e sym price
        (get_portfolio_value e [(sym, price)]) ≤ 0 →
      execute_trade e ts sym OrderType.BUY price reason = (none, e)) ∧
    (dictGet e.positions sym = none →
      calculate_position_size e sym price (get_portfolio_value e [(sym, price)]) *
          (price * (1 + e.slippage_rate)) +
        calculate_position_size e sym price (get_portfolio_value e [(sym, price)]) *
          (price * (1 + e.slippage_rate)) * e.commission_rate > e.cash →
      execute_trade e ts sym OrderType.BUY price reason = (none, e)) ∧
    (dictGet e.positions sym = none →
      execute_trade e ts sym OrderType.SELL price reason = (none, e)) := by
  refine ⟨?_, ?_, ?_, ?_⟩
  · intro h
    obtain ⟨p, hp⟩ := Option.isSome_iff_exists.mp h
    simp [execute_trade, hp]
  · intro hq
    cases hp : dictGet e.positions sym with
    | some p => simp [execute_trade, hp]
    | none => simp [execute_trade, hp, hq]
  · intro hn hcost
    by_cases hq : calculate_position_size e sym price
        (get_portfolio_value e [(sym, price)]) ≤ 0
    · simp [execute_trade, hn, hq]
    · simp [execute_trade, hn, hq, hcost]
  · intro hn
    simp [execute_trade, hn]

/-- C2 witness: the four rejection causes each return `(none, e)` on
concrete engines — duplicate position, quantity ≤ 0 (no cash),
insufficient funds (absurd slippage), and SELL with no position. -/
theorem rejection_silent_noop_witness :
    execute_trade engineWithPos 1 "BTC" OrderType.BUY 100 "" =
      (none, engineWithPos) ∧
    execute_trade engineBroke 1 "BTC" OrderType.BUY 100 "" =
      (none, engineBroke) ∧
    execute_trade engineSlip 1 "BTC" OrderType.BUY 50000 "" =
      (none, engineSlip) ∧
    execute_trade (Engine.init) 1 "ETH" OrderType.SELL 100 "" =
      (none, Engine.init) := by
  refine ⟨(rejection_silent_noop engineWithPos 1 "BTC" 100 "").1 ?_,
    (rejection_silent_noop engineBroke 1 "BTC" 100 "").2.1 ?_,
    (rejection_silent_noop engineSlip 1 "BTC" 50000 "").2.2.1 ?_ ?_,
    (rejection_silent_noop (Engine.init) 1 "ETH" 100 "").2.2.2 ?_⟩
  · simp [engineWithPos, dictGet]
  · norm_num [engineBroke, Engine.init, calculate_position_size,
      get_portfolio_value]
  · simp [engineSlip, Engine.init, dictGet]
  · norm_num [engineSlip, Engine.init, calculate_position_size,
      get_portfolio_value, dictGet]
  · simp [Engine.init, dictGet]

lemma mem_keys_dictSet {α : Type} {d : List (String × α)} {k a : String}
    {v : α} (h : a ∈ (dictSet d k v).map Prod.fst) :
    a = k ∨ a ∈ d.map Prod.fst := by
  induction d with
  | nil => simpa [dictSet] using h
  | cons hd tl ih =>
      by_cases hk : hd.1 = k
      · rw [show dictSet (hd :: tl) k v = (k, v) :: tl by simp [dictSet, hk]] at h
        rcases List.mem_cons.mp h with h' | h'
        · exact Or.inl h'
        · exact Or.inr (List.mem_cons_of_mem _ h')
      · rw [show dictSet (hd :: tl) k v = hd :: dictSet tl k v by
          simp [dictSet, hk]] at h
        rcases List.mem_cons.mp h with h' | h'
        · exact Or.inr (List.mem_cons.mpr (Or.inl h'))
        · rcases ih h' with h'' | h''
          · exact Or.inl h''
          · exact Or.inr (List.mem_cons_of_mem _ h'')

lemma dictSet_keys_nodup {α : Type} {d : List (String × α)} (k : String)
    (v : α) (h : (d.map Prod.fst).Nodup) :
    ((dictSet d k v).map Prod.fst).Nodup := by
  induction d with
  | nil => simp [dictSet]
  | cons hd tl ih =>
      rw [List.map_cons, List.nodup_cons] at h
      obtain ⟨hmem, hnd⟩ := h
      by_cases hk : hd.1 = k
      · rw [show dictSet (hd :: tl) k v = (k, v) :: tl by simp [dictSet, hk]]
        rw [List.map_cons, List.nodup_cons]
        exact ⟨by simpa [hk] using hmem, hnd⟩
      · rw [show dictSet (hd :: tl) k v = hd :: dictSet tl k v by
          simp [dictSet, hk]]
        rw [List.map_cons, List.nodup_cons]
        refine ⟨fun hmem' => ?_, ih hnd⟩
        rcases mem_keys_dictSet hmem' with h'' | h''
        · exact hk h''
        · exact hmem h''

lemma dictDel_keys_sublist {α : Type} (d : List (String × α)) (k : String) :
    ((dictDel d k).map Prod.fst).Sublist (d.map Prod.fst) := by
  induction d with
  | nil => simp [dictDel]
  | cons hd tl ih =>
      by_cases hk : hd.1 = k
      · rw [show dictDel (hd :: tl) k = tl by simp [dictDel, hk]]
        exact List.sublist_cons_self _ _
      · rw [show dictDel (hd :: tl) k = hd :: dictDel tl k by
          simp [dictDel, hk]]
        exact ih.cons₂ _

lemma execute_trade_keys_nodup (e : Engine) (ts : ℕ) (sym : String)
    (ot : OrderType) (price : ℚ) (reason : String)
    (h : (e.positions.map Prod.fst).Nodup) :
    (((execute_trade e ts sym ot price reason).2.positions.map
      Prod.fst)).Nodup := by
  cases ot <;> simp only [execute_trade]
  · split
    · exact h
    · split
      · exact h
      · split
        · exact h
        · exact dictSet_keys_nodup _ _ h
  · split
    · exact h
    · exact List.Nodup.sublist (dictDel_keys_sublist _ _) h
  · exact h

/-- C3: while a position is open for a symbol, a second BUY on that symbol
is a complete no-op — result `(none, e)` with the whole engine unchanged
(so cash, the position's quantity, the trade log and the trade counters
are all untouched) — and every `execute_trade` call preserves uniqueness
of position keys, so at most one open position per symbol ever exists. -/
theorem duplicate_buy_frame (e : Engine) (ts : ℕ) (sym : String)
    (price : ℚ) (reason : String) :
    ((dictGet e.positions sym).isSome →
      execute_trade e ts sym OrderType.BUY price reason = (none, e)) ∧
    (∀ ot : OrderType, (e.positions.map Prod.fst).Nodup →
      (((execute_trade e ts sym ot price reason).2.positions.map
        Prod.fst)).Nodup) := by
  constructor
  · intro h
    obtain ⟨p, hp⟩ := Option.isSome_iff_exists.mp h
    simp [execute_trade, hp]
  · intro ot h
    exact execute_trade_keys_nodup e ts sym ot price reason h

/-- C3 witness: on an engine already holding a BTC position, a second BUY
returns `(none, engineWithPos)` and the position keys stay unique. -/
theorem duplicate_buy_frame_witness :
    execute_trade engineWithPos 2 "BTC" OrderType.BUY 120 "" =
      (none, engineWithPos) ∧
    (((execute_trade engineWithPos 2 "BTC" OrderType.BUY 120 "").2.positions.map
      Prod.fst)).Nodup := by
  refine ⟨(duplicate_buy_frame engineWithPos 2 "BTC" 120 "").1 ?_,
    (duplicate_buy_frame engineWithPos 2 "BTC" 120 "").2 OrderType.BUY ?_⟩
  · simp [engineWithPos, dictGet]
  · simp [engineWithPos]

/-- C4: for an open position with a known current price, the sweep closes
it for stop-loss exactly when the unrealized P&L percentage
`cp / entry_price − 1` is `≤ −stop_loss_pct`, closes it for take-profit
exactly when it is `≥ +take_profit_pct`, and leaves every position
strictly inside the band `(−stop_loss_pct, +take_profit_pct)` open
(merely refreshing its mark-to-market fields). -/
theorem stop_take_profit_sweep_band (e : Engine) (sym : String)
    (pos : Position) (ts : ℕ) (cp : ℚ)
    (hpos : e.positions = [(sym, pos)])
    (hsl : 0 < e.stop_loss_pct) (htp : 0 < e.take_profit_pct) :
    (cp / pos.entry_price - 1 ≤ -e.stop_loss_pct →
      (check_stop_loss_take_profit e ts [(sym, cp)]).1.positions = [] ∧
      (check_stop_loss_take_profit e ts [(sym, cp)]).2.map Trade.order_type =
        [OrderType.SELL] ∧
      (check_stop_loss_take_profit e ts [(sym, cp)]).2.map Trade.reason =
        ["Stop Loss triggered at " ++ fmtPct (cp / pos.entry_price - 1)]) ∧
    (e.take_profit_pct ≤ cp / pos.entry_price - 1 →
      (check_stop_loss_take_profit e ts [(sym, cp)]).1.positions = [] ∧
      (check_stop_loss_take_profit e ts [(sym, cp)]).2.map Trade.order_type =
        [OrderType.SELL] ∧
      (check_stop_loss_take_profit e ts [(sym, cp)]).2.map Trade.reason =
        ["Take Profit triggered at " ++ fmtPct (cp / pos.entry_price - 1)]) ∧
    (-e.stop_loss_pct < cp / pos.entry_price - 1 →
      cp / pos.entry_price - 1 < e.take_profit_pct →
      (check_stop_loss_take_profit e ts [(sym, cp)]).1.positions =
        [(sym, { pos with
          current_price := cp
          unrealized_pnl := (cp - pos.entry_price) * pos.quantity
          unrealized_pnl_pct := cp / pos.entry_price - 1 })] ∧
      (check_stop_loss_take_profit e ts [(sym, cp)]).2 = []) := by
  refine ⟨?_, ?_, ?_⟩
  · intro h1
    simp [check_stop_loss_take_profit, sweepPosition, execute_trade,
      dictGet, dictUpdate, dictDel, hpos, h1]
  · intro h2
    have h1 : ¬ (cp / pos.entry_price - 1 ≤ -e.stop_loss_pct) := by
      push_neg
      linarith
    simp [check_stop_loss_take_profit, sweepPosition, execute_trade,
      dictGet, dictUpdate, dictDel, hpos, h1, h2]
  · intro h1 h2
    have h1' : ¬ (cp / pos.entry_price - 1 ≤ -e.stop_loss_pct) :=
      not_le.mpr h1
    have h2' : ¬ (e.take_profit_pct ≤ cp / pos.entry_price - 1) :=
      not_le.mpr h2
    simp [check_stop_loss_take_profit, sweepPosition, execute_trade,
      dictGet, dictUpdate, dictDel, hpos, h1', h2']

/-- A position of quantity 1 entered at price 100 on symbol `"X"`. -/
def posX : Position where
  symbol := "X"
  quantity := 1
  entry_price := 100
  entry_time := 0
  current_price := 100
  unrealized_pnl := 0
  unrealized_pnl_pct := 0

/-- Engine with 100 initial capital, all of it in the open position `posX`. -/
def engineOnePos : Engine :=
  { Engine.init 100 with cash := 0, positions := [("X", posX)] }

/-- C4 witness: at current price 50 the position `posX` is 50% under
water, beyond the 15% stop loss, so the sweep closes it with a SELL. -/
theorem stop_take_profit_sweep_band_witness :
    (check_stop_loss_take_profit engineOnePos 5 [("X", 50)]).1.positions = [] ∧
    (check_stop_loss_take_profit engineOnePos 5 [("X", 50)]).2.map
      Trade.order_type = [OrderType.SELL] := by
  have h := (stop_take_profit_sweep_band engineOnePos "X" posX 5 50
    (by simp [engineOnePos, posX, Engine.init])
    (by norm_num [engineOnePos, Engine.init])
    (by norm_num [engineOnePos, Engine.init])).1
    (by norm_num [posX, engineOnePos, Engine.init])
  exact ⟨h.1, h.2.1⟩

lemma execute_trade_history (e : Engine) (ts : ℕ) (sym : String)
    (ot : OrderType) (price : ℚ) (reason : String) :
    (execute_trade e ts sym ot price reason).2.portfolio_value_history =
      e.portfolio_value_history := by
  cases ot
  · simp only [execute_trade]
    split
    · rfl
    · split
      · rfl
      · split
        · rfl
        · rfl
  · simp only [execute_trade]
    split
    · rfl
    · rfl
  · rfl

lemma sweepPosition_history (ts : ℕ) (prices : List (String × ℚ))
    (st : Engine × List Trade) (kv : String × Position) :
    (sweepPosition ts prices st kv).1.portfolio_value_history =
      st.1.portfolio_value_history := by
  simp only [sweepPosition]
  split
  · rfl
  · split
    · split
      · exact execute_trade_history _ _ _ _ _ _
      · exact execute_trade_history _ _ _ _ _ _
    · split
      · split
        · exact execute_trade_history _ _ _ _ _ _
        · exact execute_trade_history _ _ _ _ _ _
      · rfl

lemma foldl_sweep_history (ts : ℕ) (prices : List (String × ℚ)) :
    ∀ (l : List (String × Position)) (st : Engine × List Trade),
    (l.foldl (sweepPosition ts prices) st).1.portfolio_value_history =
      st.1.portfolio_value_history := by
  intro l
  induction l with
  | nil => intro st; rfl
  | cons hd tl ih =>
      intro st
      rw [List.foldl_cons, ih, sweepPosition_history]

lemma check_stop_loss_history (e : Engine) (ts : ℕ)
    (prices : List (String × ℚ)) :
    (check_stop_loss_take_profit e ts prices).1.portfolio_value_history =
      e.portfolio_value_history :=
  foldl_sweep_history ts prices e.positions (e, [])

lemma update_portfolio_value_history (e : Engine) (ts : ℕ)
    (prices : List (String × ℚ)) :
    (update_portfolio_value e ts prices).portfolio_value_history =
      e.portfolio_value_history ++ [(ts, get_portfolio_value e prices)] := by
  simp only [update_portfolio_value]
  split <;> first | rfl | (split <;> rfl)

lemma update_portfolio_value_trades (e : Engine) (ts : ℕ)
    (prices : List (String × ℚ)) :
    (update_portfolio_value e ts prices).trades = e.trades := by
  simp only [update_portfolio_value]
  split <;> first | rfl | (split <;> rfl)

lemma bar_step_history_len (sym : String) (strat : Strategy) (e : Engine)
    (bar : ℕ × ℚ) :
    (bar_step sym strat e bar).portfolio_value_history.length =
      e.portfolio_value_history.length + 1 := by
  simp only [bar_step]
  rw [update_portfolio_value_history, List.length_append]
  have h1 := check_stop_loss_history e bar.1 [(sym, bar.2)]
  cases hs : strat bar.1 bar.2
      (check_stop_loss_take_profit e bar.1 [(sym, bar.2)]).1 with
  | ok p =>
      obtain ⟨ot2, rs⟩ := p
      dsimp only
      by_cases hh : ot2 ≠ OrderType.HOLD
      · rw [if_pos hh, execute_trade_history, h1]
        simp
      · rw [if_neg hh, h1]
        simp
  | error msg =>
      dsimp only
      rw [h1]
      simp

/-- C5 counterexample: a BUY on the fresh default engine fills, yet the
portfolio value history after the execution is still empty — no
valuation snapshot is appended as part of `execute_trade`. -/
theorem fill_snapshot_counterexample :
    (execute_trade (Engine.init) 0 "BTC" OrderType.BUY 50000 "").1.isSome =
      true ∧
    (execute_trade (Engine.init) 0 "BTC" OrderType.BUY 50000
      "").2.portfolio_value_history = [] := by
  constructor
  · norm_num [execute_trade, Engine.init, get_portfolio_value,
      calculate_position_size, dictGet, dictSet]
  · rw [execute_trade_history]
    simp [Engine.init]

/-- C5 (amended): every fill appends exactly one `Trade` to the trade log
while leaving the portfolio value history untouched; the valuation
snapshot is appended once per bar by the backtest driver
(`update_portfolio_value` at the end of `bar_step`), not inside
`execute_trade`. -/
theorem fill_appends_one_trade (e : Engine) (ts : ℕ) (sym : String)
    (ot : OrderType) (price : ℚ) (reason : String) (t : Trade) (e' : Engine)
    (h : execute_trade e ts sym ot price reason = (some t, e')) :
    e'.trades = e.trades ++ [t] ∧
    e'.portfolio_value_history = e.portfolio_value_history ∧
    (∀ (strategy_func : Strategy) (bar : ℕ × ℚ),
      (bar_step sym strategy_func e bar).portfolio_value_history.length =
        e.portfolio_value_history.length + 1) := by
  refine ⟨?_, ?_, fun strat bar => bar_step_history_len sym strat e bar⟩
  · cases ot <;> simp only [execute_trade] at h
    · split at h
      · simp at h
      · split at h
        · simp at h
        · split at h
          · simp at h
          · rw [Prod.mk.injEq] at h
            obtain ⟨h1, h2⟩ := h
            obtain rfl := Option.some.inj h1
            subst h2
            rfl
    · split at h
      · simp at h
      · rw [Prod.mk.injEq] at h
        obtain ⟨h1, h2⟩ := h
        obtain rfl := Option.some.inj h1
        subst h2
        rfl
    · simp at h
  · have := execute_trade_history e ts sym ot price reason
    rw [h] at this
    exact this

/-- C5 witness: the demonstration BUY of `buyDemoTrade` appends exactly
that trade and leaves the (empty) value history untouched. -/
theorem fill_appends_one_trade_witness :
    buyDemoAfter.trades = (Engine.init).trades ++ [buyDemoTrade] ∧
    buyDemoAfter.portfolio_value_history =
      (Engine.init).portfolio_value_history := by
  have h1 : (execute_trade (Engine.init) 0 "BTC" OrderType.BUY 50000 "").1 =
      some buyDemoTrade := by
    norm_num [execute_trade, Engine.init, get_portfolio_value,
      calculate_position_size, dictGet, dictSet, buyDemoTrade]
  have h : execute_trade (Engine.init) 0 "BTC" OrderType.BUY 50000 "" =
      (some buyDemoTrade, buyDemoAfter) := Prod.ext h1 rfl
  have hmain := fill_appends_one_trade (Engine.init) 0 "BTC" OrderType.BUY
    50000 "" buyDemoTrade buyDemoAfter h
  exact ⟨hmain.1, hmain.2.1⟩

/-- C6: when the strategy function raises on a bar, the bar reduces to the
stop/take-profit sweep followed by the valuation snapshot — the strategy's
error is swallowed (treated as HOLD), no strategy trade is executed, the
snapshot is still appended, and the driver proceeds with the remaining
bars; the strategy is invoked on the post-sweep state, i.e. the sweep runs
first. -/
theorem strategy_error_treated_as_hold (e : Engine) (sym : String)
    (strat : Strategy) (ts : ℕ) (cp : ℚ) (bars : List (ℕ × ℚ)) (msg : String)
    (herr : strat ts cp (check_stop_loss_take_profit e ts [(sym, cp)]).1 =
      Except.error msg) :
    bar_step sym strat e (ts, cp) =
      update_portfolio_value (check_stop_loss_take_profit e ts [(sym, cp)]).1
        ts [(sym, cp)] ∧
    (bar_step sym strat e (ts, cp)).trades =
      (check_stop_loss_take_profit e ts [(sym, cp)]).1.trades ∧
    (bar_step sym strat e (ts, cp)).portfolio_value_history =
      (check_stop_loss_take_profit e ts
        [(sym, cp)]).1.portfolio_value_history ++
        [(ts, get_portfolio_value
          (check_stop_loss_take_profit e ts [(sym, cp)]).1 [(sym, cp)])] ∧
    run_backtest sym strat e ((ts, cp) :: bars) =
      run_backtest sym strat (bar_step sym strat e (ts, cp)) bars := by
  have hb : bar_step sym strat e (ts, cp) =
      update_portfolio_value (check_stop_loss_take_profit e ts [(sym, cp)]).1
        ts [(sym, cp)] := by
    simp only [bar_step]
    rw [herr]
  refine ⟨hb, ?_, ?_, rfl⟩
  · rw [hb, update_portfolio_value_trades]
  · rw [hb, update_portfolio_value_history]

/-- A strategy that always raises, embedded as `Except.error`. -/
def errStrategy : Strategy :=
  fun _ _ _ => Except.error "strategy raised"

/-- C6 witness: a bar whose strategy raises reduces to sweep-then-snapshot
on the fresh default engine. -/
theorem strategy_error_treated_as_hold_witness :
    bar_step "BTC" errStrategy (Engine.init) (0, 100) =
      update_portfolio_value
        (check_stop_loss_take_profit (Engine.init) 0 [("BTC", 100)]).1 0
        [("BTC", 100)] :=
  (strategy_error_treated_as_hold (Engine.init) "BTC" errStrategy 0 100 []
    "strategy raised" rfl).1

/-- Snapshot state after `engineOnePos` is marked at price 50: the
portfolio halves, so the recorded max drawdown becomes 1/2. -/
def ddEngine1 : Engine := update_portfolio_value engineOnePos 0 [("X", 50)]

/-- Snapshot state after the portfolio then recovers to 200 — a new
running peak (200 > the previous peak 100). -/
def ddEngine2 : Engine := update_portfolio_value ddEngine1 1 [("X", 200)]

/-- C7 counterexample: after the value series 100-peak → 50 → 200, the
bar at value 200 is a new running peak, yet the recorded max drawdown is
1/2, not 0 — the max drawdown is not reset at new peaks. -/
theorem max_drawdown_peak_counterexample :
    ddEngine1.max_portfolio_value < get_portfolio_value ddEngine1 [("X", 200)] ∧
    ddEngine2.max_drawdown = 1 / 2 ∧
    ¬ ddEngine2.max_drawdown = 0 := by
  norm_num [ddEngine1, ddEngine2, engineOnePos, posX, Engine.init,
    update_portfolio_value, get_portfolio_value, dictGet]

/-- C7 (amended): the recorded max drawdown is monotonically
non-decreasing under every valuation snapshot, and at a new running peak
the current-drawdown term is 0, so the recorded max drawdown stays
exactly unchanged (it is not reset to 0; it equals 0 only if no drawdown
has ever been recorded). -/
theorem max_drawdown_monotone (e : Engine) (ts : ℕ)
    (prices : List (String × ℚ)) :
    e.max_drawdown ≤ (update_portfolio_value e ts prices).max_drawdown ∧
    (0 ≤ e.max_drawdown →
      e.max_portfolio_value < get_portfolio_value e prices →
      (update_portfolio_value e ts prices).max_drawdown = e.max_drawdown) := by
  constructor
  · simp only [update_portfolio_value]
    split_ifs with h1 h2 h3 <;> simp_all <;> linarith
  · intro h0 hpk
    simp only [update_portfolio_value]
    split_ifs with h1 h2 h3 <;> simp_all
    linarith

/-- C7 witness: on the recovered engine `ddEngine2` (max drawdown 1/2,
peak 200), a further snapshot at price 300 is again a new running peak
and leaves the recorded max drawdown at exactly 1/2. -/
theorem max_drawdown_monotone_witness :
    ddEngine2.max_drawdown ≤
      (update_portfolio_value ddEngine2 2 [("X", 300)]).max_drawdown ∧
    (update_portfolio_value ddEngine2 2 [("X", 300)]).max_drawdown =
      ddEngine2.max_drawdown := by
  refine ⟨(max_drawdown_monotone ddEngine2 2 [("X", 300)]).1,
    (max_drawdown_monotone ddEngine2 2 [("X", 300)]).2 ?_ ?_⟩ <;>
    norm_num [ddEngine1, ddEngine2, engineOnePos, posX, Engine.init,
      update_portfolio_value, get_portfolio_value, dictGet]

lemma monitor_loop_stopped (m : ℕ) (b : BotState)
    (h : b.is_running = false) : monitor_loop false m b = b := by
  cases m with
  | zero => rfl
  | succ n => simp [monitor_loop, h]

lemma monitor_loop_exhaust (delay k N : ℕ) :
    ∀ (j c : ℕ), c + j = N →
    monitor_loop false (j + k + 1)
      { max_retries := N, retry_delay := delay, retry_count := c,
        is_running := true, engine_running := false,
        total_wait := c * delay } =
      { max_retries := N, retry_delay := delay, retry_count := N,
        is_running := false, engine_running := false,
        total_wait := N * delay } := by
  intro j
  induction j with
  | zero =>
      intro c hc
      have hcN : c = N := by omega
      subst hcN
      rw [show (0 + k + 1) = k + 1 by omega]
      rw [monitor_loop]
      rw [if_pos rfl]
      have hstep : monitor_step false
          { max_retries := c, retry_delay := delay, retry_count := c,
            is_running := true, engine_running := false,
            total_wait := c * delay } =
          { max_retries := c, retry_delay := delay, retry_count := c,
            is_running := false, engine_running := false,
            total_wait := c * delay } := by
        simp [monitor_step, handle_engine_failure, bot_stop]
      rw [hstep]
      exact monitor_loop_stopped k _ rfl
  | succ j ih =>
      intro c hc
      have hlt : ¬ (c ≥ N) := by omega
      rw [show (j + 1 + k + 1) = (j + k + 1) + 1 by omega]
      rw [monitor_loop]
      rw [if_pos rfl]
      have hstep : monitor_step false
          { max_retries := N, retry_delay := delay, retry_count := c,
            is_running := true, engine_running := false,
            total_wait := c * delay } =
          { max_retries := N, retry_delay := delay, retry_count := c + 1,
            is_running := true, engine_running := false,
            total_wait := (c + 1) * delay } := by
        simp [monitor_step, handle_engine_failure, hlt]
        ring
      rw [hstep]
      exact ih (c + 1) (by omega)

/-- C8: supervising an engine whose restart always fails, the monitoring
loop performs one retry per pass — waiting the fixed `retry_delay` each
time and incrementing the consecutive-retry counter — until the counter
reaches `max_retries`, at which point the manager stops permanently
(`is_running = false`, a state every further pass leaves untouched); with
`max_retries = 2` it halts after exactly 2 retries, having waited
`2 × retry_delay`. -/
theorem supervisor_retry_exhaustion (N delay k : ℕ) :
    monitor_loop false (N + k + 1) (bot_init N delay) =
      { max_retries := N, retry_delay := delay, retry_count := N,
        is_running := false, engine_running := false,
        total_wait := N * delay } ∧
    (∀ m, monitor_loop false m
        { max_retries := N, retry_delay := delay, retry_count := N,
          is_running := false, engine_running := false,
          total_wait := N * delay } =
      { max_retries := N, retry_delay := delay, retry_count := N,
        is_running := false, engine_running := false,
        total_wait := N * delay }) ∧
    monitor_loop false (2 + k + 1) (bot_init 2 delay) =
      { max_retries := 2, retry_delay := delay, retry_count := 2,
        is_running := false, engine_running := false,
        total_wait := 2 * delay } := by
  refine ⟨?_, fun m => monitor_loop_stopped m _ rfl, ?_⟩
  · have h := monitor_loop_exhaust delay k N N 0 (by omega)
    simpa [bot_init] using h
  · have h := monitor_loop_exhaust delay k 2 2 0 (by omega)
    simpa [bot_init] using h

/-- C9: the win/loss counters change only on filled SELLs (exactly one of
them is incremented per filled SELL, so their sum counts the filled
SELLs), and a filled SELL whose realized P&L — net proceeds (the trade's
`total_cost`) minus `entry_price × quantity` — is exactly zero increments
`losing_trades`, not `winning_trades`: only strictly positive P&L counts
as a win. -/
theorem breakeven_sell_counted_as_loss (e : Engine) (ts : ℕ) (sym : String)
    (ot : OrderType) (price : ℚ) (reason : String) (r : Option Trade)
    (e' : Engine)
    (h : execute_trade e ts sym ot price reason = (r, e')) :
    (e'.winning_trades + e'.losing_trades =
      e.winning_trades + e.losing_trades +
        (if ot = OrderType.SELL ∧ r.isSome then 1 else 0)) ∧
    (∀ (pos : Position) (t : Trade),
      dictGet e.positions sym = some pos → ot = OrderType.SELL →
      r = some t →
      (t.total_cost - pos.entry_price * pos.quantity = 0 →
        e'.losing_trades = e.losing_trades + 1 ∧
        e'.winning_trades = e.winning_trades) ∧
      (e'.winning_trades = e.winning_trades + 1 ↔
        0 < t.total_cost - pos.entry_price * pos.quantity)) := by
  cases ot
  · -- BUY: counters never change, and a BUY is not a SELL
    have hw : e'.winning_trades = e.winning_trades ∧
        e'.losing_trades = e.losing_trades := by
      simp only [execute_trade] at h
      split at h
      · rw [Prod.mk.injEq] at h
        obtain ⟨h1, h2⟩ := h
        subst h2
        exact ⟨rfl, rfl⟩
      · split at h
        · rw [Prod.mk.injEq] at h
          obtain ⟨h1, h2⟩ := h
          subst h2
          exact ⟨rfl, rfl⟩
        · split at h
          · rw [Prod.mk.injEq] at h
            obtain ⟨h1, h2⟩ := h
            subst h2
            exact ⟨rfl, rfl⟩
          · rw [Prod.mk.injEq] at h
            obtain ⟨h1, h2⟩ := h
            subst h2
            exact ⟨rfl, rfl⟩
    refine ⟨by rw [hw.1, hw.2]; simp, fun pos t hpos hot hr => ?_⟩
    exact absurd hot (by simp)
  · -- SELL
    simp only [execute_trade] at h
    split at h
    next heq =>
      -- no position: nothing happens, and the position hypothesis is
      -- contradictory
      rw [Prod.mk.injEq] at h
      obtain ⟨h1, h2⟩ := h
      subst h2
      obtain rfl := h1.symm
      refine ⟨by simp, fun pos t hpos hot hr => ?_⟩
      rw [heq] at hpos
      exact Option.noConfusion hpos
    next position heq =>
      rw [Prod.mk.injEq] at h
      obtain ⟨h1, h2⟩ := h
      subst h2
      obtain rfl := h1.symm
      constructor
      · by_cases hp : position.quantity * (price * (1 - e.slippage_rate)) -
            position.quantity * (price * (1 - e.slippage_rate)) *
              e.commission_rate -
            position.entry_price * position.quantity > 0
        · simp only [hp, if_true, if_pos hp]
          simp
          omega
        · simp only [hp, if_false, if_neg hp]
          simp
          omega
      · intro pos t hpos hot hr
        obtain rfl := Option.some.inj (heq.symm.trans hpos)
        obtain rfl := Option.some.inj hr
        dsimp only
        constructor
        · intro h0
          have hnp : ¬ (position.quantity * (price * (1 - e.slippage_rate)) -
              position.quantity * (price * (1 - e.slippage_rate)) *
                e.commission_rate -
              position.entry_price * position.quantity > 0) := by
            rw [gt_iff_lt]
            intro hlt
            rw [h0] at hlt
            exact lt_irrefl 0 hlt
          rw [if_neg hnp, if_neg hnp]
          exact ⟨rfl, rfl⟩
        · constructor
          · intro hw
            by_contra hp
            rw [not_lt] at hp
            have hnp : ¬ (position.quantity * (price * (1 - e.slippage_rate)) -
                position.quantity * (price * (1 - e.slippage_rate)) *
                  e.commission_rate -
                position.entry_price * position.quantity > 0) := by
              rw [gt_iff_lt, not_lt]
              exact hp
            rw [if_neg hnp] at hw
            omega
          · intro hp
            have hp' : position.quantity * (price * (1 - e.slippage_rate)) -
                position.quantity * (price * (1 - e.slippage_rate)) *
                  e.commission_rate -
                position.entry_price * position.quantity > 0 := hp
            rw [if_pos hp']
  · -- HOLD
    simp only [execute_trade] at h
    rw [Prod.mk.injEq] at h
    obtain ⟨h1, h2⟩ := h
    subst h2
    obtain rfl := h1.symm
    refine ⟨by simp, fun pos t hpos hot hr => ?_⟩
    exact absurd hot (by simp)

/-- A position whose entry price `997.002 = 1000 × 0.998 × 0.999` makes a
SELL at reference price 1000 realize exactly zero P&L. -/
def posBreakeven : Position where
  symbol := "BTC"
  quantity := 1
  entry_price := 498501 / 500
  entry_time := 0
  current_price := 1000
  unrealized_pnl := 0
  unrealized_pnl_pct := 0

/-- Default engine holding the break-even position. -/
def engineBreakeven : Engine :=
  { Engine.init with positions := [("BTC", posBreakeven)] }

/-- The trade produced by the break-even SELL at reference price 1000. -/
def breakevenTrade : Trade where
  timestamp := 3
  symbol := "BTC"
  order_type := OrderType.SELL
  price := 998
  quantity := 1
  commission := 499 / 500
  slippage := 2
  total_cost := 498501 / 500
  portfolio_value_before := 11000
  portfolio_value_after := 5498501 / 500
  reason := ""

/-- C9 witness: a SELL with exactly zero realized P&L increments
`losing_trades` and leaves `winning_trades` untouched. -/
theorem breakeven_sell_counted_as_loss_witness :
    (execute_trade engineBreakeven 3 "BTC" OrderType.SELL 1000
      "").2.losing_trades = engineBreakeven.losing_trades + 1 ∧
    (execute_trade engineBreakeven 3 "BTC" OrderType.SELL 1000
      "").2.winning_trades = engineBreakeven.winning_trades := by
  have h1 : (execute_trade engineBreakeven 3 "BTC" OrderType.SELL 1000
      "").1 = some breakevenTrade := by
    norm_num [execute_trade, engineBreakeven, posBreakeven, Engine.init,
      get_portfolio_value, dictGet, dictDel, breakevenTrade]
  have h : execute_trade engineBreakeven 3 "BTC" OrderType.SELL 1000 "" =
      (some breakevenTrade,
       (execute_trade engineBreakeven 3 "BTC" OrderType.SELL 1000 "").2) :=
    Prod.ext h1 rfl
  have hmain := breakeven_sell_counted_as_loss engineBreakeven 3 "BTC"
    OrderType.SELL 1000 "" (some breakevenTrade)
    (execute_trade engineBreakeven 3 "BTC" OrderType.SELL 1000 "").2 h
  have hzero : breakevenTrade.total_cost -
      posBreakeven.entry_price * posBreakeven.quantity = 0 := by
    norm_num [breakevenTrade, posBreakeven]
  have hpos : dictGet engineBreakeven.positions "BTC" = some posBreakeven := by
    simp [engineBreakeven, dictGet]
  exact (hmain.2 posBreakeven breakevenTrade hpos rfl rfl).1 hzero

/-- C10: with nonnegative cash, nonnegative rates and
`(1 + slippageRate) × (1 + commissionRate) ≤ 1/0.95`, the 0.95-of-cash
cap inside `calculate_position_size` makes the insufficient-funds branch
of a BUY unreachable: any BUY that passes the duplicate-position and
`quantity > 0` checks satisfies `total_cost ≤ cash` and therefore fills. -/
theorem buy_funds_check_unreachable (e : Engine) (ts : ℕ) (sym : String)
    (price : ℚ) (reason : String)
    (hcash : 0 ≤ e.cash) (hs : 0 ≤ e.slippage_rate)
    (hc : 0 ≤ e.commission_rate)
    (hb : (1 + e.slippage_rate) * (1 + e.commission_rate) ≤ 1 / 0.95)
    (hnopos : dictGet e.positions sym = none)
    (hq : 0 < calculate_position_size e sym price
      (get_portfolio_value e [(sym, price)])) :
    (execute_trade e ts sym OrderType.BUY price reason).1.isSome = true := by
  have hqdef : calculate_position_size e sym price
      (get_portfolio_value e [(sym, price)]) =
      (min (min (get_portfolio_value e [(sym, price)] * e.max_position_size)
          (get_portfolio_value e [(sym, price)] * e.risk_per_trade /
            (price * e.stop_loss_pct) * price))
        (e.cash * 0.95)) / price := by
    simp only [calculate_position_size]
  obtain ⟨P, hP⟩ : ∃ P,
      min (min (get_portfolio_value e [(sym, price)] * e.max_position_size)
        (get_portfolio_value e [(sym, price)] * e.risk_per_trade /
          (price * e.stop_loss_pct) * price))
      (e.cash * 0.95) = P := ⟨_, rfl⟩
  rw [hP] at hqdef
  have hPle : P ≤ e.cash * 0.95 := hP ▸ min_le_right _ _
  have hprice : price ≠ 0 := by
    intro h0
    rw [hqdef, h0, div_zero] at hq
    exact lt_irrefl 0 hq
  have hcost : calculate_position_size e sym price
      (get_portfolio_value e [(sym, price)]) *
      (price * (1 + e.slippage_rate)) = P * (1 + e.slippage_rate) := by
    rw [hqdef]
    field_simp
    ring
  have htot : calculate_position_size e sym price
        (get_portfolio_value e [(sym, price)]) *
        (price * (1 + e.slippage_rate)) +
      calculate_position_size e sym price
        (get_portfolio_value e [(sym, price)]) *
        (price * (1 + e.slippage_rate)) * e.commission_rate ≤ e.cash := by
    rw [hcost]
    have h1 : P * (1 + e.slippage_rate) +
        P * (1 + e.slippage_rate) * e.commission_rate =
        P * ((1 + e.slippage_rate) * (1 + e.commission_rate)) := by ring
    rw [h1]
    calc P * ((1 + e.slippage_rate) * (1 + e.commission_rate)) ≤
        (e.cash * 0.95) * ((1 + e.slippage_rate) * (1 + e.commission_rate)) :=
          mul_le_mul_of_nonneg_right hPle
            (mul_nonneg (by linarith) (by linarith))
      _ ≤ (e.cash * 0.95) * (1 / 0.95) :=
          mul_le_mul_of_nonneg_left hb (mul_nonneg hcash (by norm_num))
      _ = e.cash := by ring
  simp only [execute_trade, hnopos]
  rw [if_neg (not_le.mpr hq), if_neg (not_lt.mpr htot)]
  rfl

/-- C10 witness: on the default engine (rates 0.002 and 0.001, with
`1.002 × 1.001 ≤ 1/0.95`), a first BUY at price 50000 passes all checks
and fills. -/
theorem buy_funds_check_unreachable_witness :
    (execute_trade (Engine.init) 0 "BTC" OrderType.BUY 50000
      "").1.isSome = true :=
  buy_funds_check_unreachable (Engine.init) 0 "BTC" 50000 ""
    (by norm_num [Engine.init]) (by norm_num [Engine.init])
    (by norm_num [Engine.init]) (by norm_num [Engine.init])
    (by simp [Engine.init, dictGet])
    (by norm_num [Engine.init, calculate_position_size, get_portfolio_value])

end TradingAgents
